import Mathlib

/-!
Verification development for the core of the enhanced-resolve module-resolution
engine.  The repository sources under verification are `lib/ResolverFactory.js`
(option normalization and pipeline assembly) and `lib/MainFieldPlugin.js` (the
main-field step), together with the behavioural expectations recorded in
`test/extensions.js`.  The remaining step plugins and the hook-dispatch engine
(`Resolver.js`, `ParsePlugin.js`, ...) are not part of the sources; where a
property needs them they are modelled from the specification document and each
such definition is marked `Modelled from the spec:` in its doc comment.

All string manipulation is done through `String.data` and structural list
recursion so that every definition reduces inside the kernel.
-/

/-! ## Kernel-friendly string utilities -/

/-- String begins-with test, via character lists. -/
def strBegins (s pre : String) : Bool :=
  pre.data.isPrefixOf s.data

/-- String ends-with test, via reversed character lists. -/
def strEnds (s post : String) : Bool :=
  post.data.reverse.isPrefixOf s.data.reverse

/-- Drop the first `n` characters of a string. -/
def strDropChars (n : Nat) (s : String) : String :=
  String.mk (s.data.drop n)

/-- Drop the last character of a string. -/
def strDropLastChar (s : String) : String :=
  String.mk (s.data.dropLast)

/-- Number of characters in a string. -/
def strLen (s : String) : Nat :=
  s.data.length

/-- Split a character list into the segments separated by `/`. -/
def splitSlashAux : List Char → List Char → List String
  | [], acc => [String.mk acc.reverse]
  | c :: rest, acc =>
    if c = '/' then String.mk acc.reverse :: splitSlashAux rest []
    else splitSlashAux rest (c :: acc)

/-- Split a path string at `/` separators; `"/fx/foo"` gives `["", "fx", "foo"]`. -/
def splitSlashes (s : String) : List String :=
  splitSlashAux s.data []

/-- Join segments with `/` between them. -/
def joinSegs : List String → String
  | [] => ""
  | [s] => s
  | s :: rest => s ++ "/" ++ joinSegs rest

/-- Normalize a segment list: drop empty and `.` segments and resolve `..`
against the accumulated prefix (`joinPath` restores the leading `/` of an
absolute result). -/
def normalizeSegsAux : List String → List String → List String
  | acc, [] => acc.reverse
  | acc, seg :: rest =>
    if seg = "" ∨ seg = "." then normalizeSegsAux acc rest
    else if seg = ".." then
      match acc with
      | [] => normalizeSegsAux acc rest
      | [""] => normalizeSegsAux acc rest
      | _ :: tl => normalizeSegsAux tl rest
  else normalizeSegsAux (seg :: acc) rest

/-- Modelled from the spec: path joining (`resolver.join`, whose source is not
under `src/`).  Combines a base path and a request into a new path, §4.3
JoinRequestPlugin: "combine `path` and `request` into a new `path`". -/
def joinPath (base req : String) : String :=
  let segs := splitSlashes base ++ splitSlashes req
  if strBegins base "/" then
    let core := normalizeSegsAux [] segs
    match core with
    | [] => "/"
    | segs => "/" ++ joinSegs segs
  else
    let core := normalizeSegsAux [] segs
    match core with
    | [] => "."
    | segs => joinSegs segs

/-- Parent directory of a path: all but the last segment. -/
def dirname (p : String) : String :=
  match (splitSlashes p).dropLast with
  | [] => "/"
  | [""] => "/"
  | segs => joinSegs segs

/-- Reversed-segment ancestor enumeration helper. -/
def ancRev : List String → List (List String)
  | [] => []
  | x :: rest => (x :: rest) :: ancRev rest

/-- Modelled from the spec: ancestor directories of a path, innermost first
(used by the description-file walk and by the hierarchic module lookup, §4.3,
whose plugin sources are not under `src/`). -/
def ancestorDirs (p : String) : List String :=
  (ancRev (splitSlashes p).reverse).map fun r =>
    match r.reverse with
    | [] => "/"
    | [""] => "/"
    | segs => joinSegs segs

/-- Parse a nonnegative decimal numeral; `none` unless the string is the
canonical decimal representation of a natural number. -/
def canonIndexAux : List Char → Option Nat
  | [] => none
  | cs => cs.foldl (fun acc c =>
      match acc with
      | none => none
      | some n => if '0' ≤ c ∧ c ≤ '9' then some (n * 10 + (c.toNat - '0'.toNat)) else none)
      (some 0)

/-- Canonical array-index reading of a string key, as JavaScript element access
uses it: `some i` iff the key is the canonical decimal numeral for `i`. -/
def canonIndex (k : String) : Option Nat :=
  match canonIndexAux k.data with
  | none => none
  | some n => if toString n = k then some n else none

/-! ## JSON-like description-file data -/

/-- JSON-style values as parsed from a description file (`package.json`). -/
inductive JSValue where
  | str (s : String)
  | num (n : Int)
  | bool (b : Bool)
  | null
  | obj (fields : List (String × JSValue))
  | arr (items : List JSValue)

/-- JavaScript property access `v[k]` restricted to own JSON data properties:
object key lookup, canonical-index element access on arrays, and
canonical-index single-character access on strings.  Properties inherited from
prototypes are all functions or non-string objects and can never contribute a
string result through `MainFieldPlugin`'s traversal, so they are omitted. -/
def jsGet (v : JSValue) (k : String) : Option JSValue :=
  match v with
  | .obj fields => fields.lookup k
  | .arr items =>
    match canonIndex k with
    | some i => items.get? i
    | none => none
  | .str s =>
    match canonIndex k with
    | some i => (s.data.get? i).map fun c => .str (String.mk [c])
    | none => none
  | _ => none

/-- True exactly when `typeof v === "object"` and `v !== null` in JavaScript:
plain objects and arrays. -/
def isObjectType : JSValue → Bool
  | .obj _ => true
  | .arr _ => true
  | _ => false

/-! ## The resolve request record (§3 of the spec, fields as the plugins use
them; `none` models an absent / `undefined` field) -/

structure RReq where
  path : String
  request : Option String
  query : String
  fragment : String
  module : Bool
  directory : Bool
  descriptionFilePath : Option String
  descriptionFileRoot : Option String
  descriptionFileData : Option JSValue
  relativePath : Option String
  alreadyTriedMainField : Option String

/-! ## MainFieldPlugin (translated from `src/lib/MainFieldPlugin.js`) -/

/-- The options record of MainFieldPlugin: `{name: string|Array<string>,
forceRelative: boolean}`. -/
structure MainFieldOptions where
  name : Sum String (List String)
  forceRelative : Bool
deriving DecidableEq

/-- Result of reading the configured main field out of the description data. -/
inductive FieldRead where
  | ok (s : String)
  | noString
  | crash
deriving DecidableEq

/-- The `for` loop of `MainFieldPlugin.apply` for an array-valued field name:
`current` walks the listed keys, set to `null` (here `none`) as soon as it is
`null`/`undefined` or not `typeof "object"`. -/
def jsTraverse : Option JSValue → List String → Option JSValue
  | cur, [] => cur
  | none, _ :: _ => none
  | some v, f :: fs => if isObjectType v then jsTraverse (jsGet v f) fs else none

/-- The field-reading section of `MainFieldPlugin.apply` (lines 43-63): an
array field name is traversed with `jsTraverse` and yields a value only if the
end of the walk is a string; a plain string field name reads
`content[field]` directly, which in JavaScript throws a `TypeError` when the
content is `null` or `undefined` (`.crash`). -/
def readMainField (field : Sum String (List String)) (content : Option JSValue) : FieldRead :=
  match field with
  | .inr fs =>
    match jsTraverse content fs with
    | some (.str s) => .ok s
    | _ => .noString
  | .inl f =>
    match content with
    | none => .crash
    | some .null => .crash
    | some v =>
      match jsGet v f with
      | some (.str s) => .ok s
      | _ => .noString

/-- Whether the field read completed with a string value. -/
def producesString : FieldRead → Bool
  | .ok _ => true
  | _ => false

/-- The regular expression `/^\.\.?\//` of MainFieldPlugin line 67: the value
begins with `./` or `../`. -/
def beginsDotSlash (s : String) : Bool :=
  strBegins s "./" || strBegins s "../"

/-- The `forceRelative` adjustment of MainFieldPlugin lines 67-68. -/
def applyForceRelative (forceRelative : Bool) (mainModule : String) : String :=
  if forceRelative && !beginsDotSlash mainModule then "./" ++ mainModule else mainModule

/-- Outcome of one invocation of the MainFieldPlugin tap: pass to the next tap
(`callback()` with no arguments), fork to the target hook with a derived
request (`resolver.doResolve(target, obj, ...)`), or throw. -/
inductive MainFieldOutcome where
  | yielded
  | fork (obj : RReq)
  | thrown

/-- Falsiness of an optional string (`!request.descriptionFilePath`). -/
def optStrFalsy : Option String → Bool
  | none => true
  | some s => s == ""

/-- The body of the `MainFieldPlugin` tap, translated line by line from
`src/lib/MainFieldPlugin.js` lines 36-88.  The three guards and their order
follow lines 37-42; the field read is `readMainField`; lines 64-66 reject
falsy values and `"."`/`"./"`; lines 67-68 are `applyForceRelative`; lines
69-75 build the forked request. -/
def mainFieldStep (opts : MainFieldOptions) (req : RReq) : MainFieldOutcome :=
  if req.descriptionFileRoot != some req.path
      || req.alreadyTriedMainField == req.descriptionFilePath
      || optStrFalsy req.descriptionFilePath then
    .yielded
  else
    match readMainField opts.name req.descriptionFileData with
    | .crash => .thrown
    | .noString => .yielded
    | .ok m =>
      if m == "" || m == "." || m == "./" then .yielded
      else
        let mm := applyForceRelative opts.forceRelative m
        .fork { req with
                 request := some mm
                 module := false
                 directory := strEnds mm "/"
                 alreadyTriedMainField := req.descriptionFilePath }

/-! ## Alias options (`ResolverFactory.js` typedefs, lines 39-41) -/

/-- `AliasOptionNewRequest`: `string | string[] | false`. -/
inductive AliasNewRequest where
  | ignore
  | one (s : String)
  | many (ss : List String)
deriving DecidableEq

/-- `AliasOptionEntry`: `{alias, name, onlyModule}`.  The source field `alias`
is spelled `aliasTo` because `alias` is a reserved word in Lean. -/
structure AliasEntry where
  name : String
  onlyModule : Bool
  aliasTo : AliasNewRequest
deriving DecidableEq

/-- The user-facing `alias` option: a plain object (a key-value list in
iteration order), an entry array, or absent. -/
inductive AliasOption where
  | obj (kvs : List (String × AliasNewRequest))
  | arr (entries : List AliasEntry)
  | undef
deriving DecidableEq

/-- `aliasOptionsToArray` (ResolverFactory.js lines 419-431): each key becomes
an entry with `onlyModule` false, except that a key matching `/\$$/` has the
trailing `$` removed from its name and `onlyModule` set true. -/
def aliasOptionsToArray (kvs : List (String × AliasNewRequest)) : List AliasEntry :=
  kvs.map fun kv =>
    let obj : AliasEntry := { name := kv.1, onlyModule := false, aliasTo := kv.2 }
    if strEnds kv.1 "$" then { obj with onlyModule := true, name := strDropLastChar kv.1 }
    else obj

/-! ## Path classification -/

/-- Modelled from the spec: the `PathType` classification of `pathUtils.js`
(not under `src/`), §2 PathClassifier: normal (bare module), relative,
absolute-posix, absolute-windows, or internal (`#...`). -/
inductive PathType where
  | normal
  | relative
  | absoluteWin
  | absolutePosix
  | internal
deriving DecidableEq

/-- Modelled from the spec: `getType` of `pathUtils.js` (not under `src/`),
classifying a request string per §2 PathClassifier. -/
def getType (p : String) : PathType :=
  if strBegins p "#" then .internal
  else if strBegins p "/" then .absolutePosix
  else if p.data.length ≥ 2 ∧ (p.data.get? 1 = some ':') then .absoluteWin
  else if strBegins p "." then .relative
  else .normal

/-! ## Module roots -/

/-- One entry of the normalized `modules` array: JavaScript `string | string[]`,
a `string[]` group driving hierarchic lookup or a single root path. -/
inductive ModuleEntry where
  | hier (dirs : List String)
  | root (dir : String)
deriving DecidableEq

/-- One step of the reduce inside `mergeFilteredToArray` (ResolverFactory.js
lines 440-453): a filtered item is appended to the last element when that is
already an array, otherwise pushed as a fresh singleton array; an unfiltered
item is pushed as-is. -/
def mergeStep (filter : String → Bool) (acc : List ModuleEntry) (item : String) : List ModuleEntry :=
  if filter item then
    match acc.getLast? with
    | some (.hier g) => acc.dropLast ++ [.hier (g ++ [item])]
    | _ => acc ++ [.hier [item]]
  else acc ++ [.root item]

/-- `mergeFilteredToArray` (ResolverFactory.js lines 439-454). -/
def mergeFilteredToArray (array : List String) (filter : String → Bool) : List ModuleEntry :=
  array.foldl (mergeStep filter) []

/-- The filter passed to `mergeFilteredToArray` by `createOptions` (lines
147-150): path type Normal or Relative. -/
def modulesFilter (item : String) : Bool :=
  getType item == PathType.normal || getType item == PathType.relative

/-! ## Main-field option normalization -/

/-- A user-facing `mainFields` element: `string | string[] |
{name: string|string[], forceRelative: boolean}`. -/
inductive MainFieldUserItem where
  | str (s : String)
  | list (ss : List String)
  | record (name : Sum String (List String)) (forceRelative : Bool)
deriving DecidableEq

/-- The `mainFields` element normalization of `createOptions` (lines 152-169). -/
def normalizeMainField : MainFieldUserItem → MainFieldOptions
  | .str s => { name := .inr [s], forceRelative := true }
  | .list ss => { name := .inr ss, forceRelative := true }
  | .record (.inr ss) fr => { name := .inr ss, forceRelative := fr }
  | .record (.inl s) fr => { name := .inr [s], forceRelative := fr }

/-! ## Options records -/

/-- The user-facing `modules` option: `string[] | string | undefined`. -/
inductive ModulesOption where
  | list (ss : List String)
  | single (s : String)
  | undef
deriving DecidableEq

/-- `UserResolveOptions` (ResolverFactory.js lines 44-64), restricted to the
fields that influence pipeline assembly.  User plugins are opaque external
objects and are modelled by numeric identifiers; `pnpApi` is modelled as the
already-processed presence flag because `processPnpApiOption` consults the
ambient process environment. -/
structure UserResolveOptions where
  aliasOption : AliasOption
  aliasFields : List (Sum String (List String))
  cacheWithContext : Option Bool
  descriptionFiles : Option (List String)
  enforceExtension : Option Bool
  extensions : Option (List String)
  unsafeCache : Bool
  symlinks : Option Bool
  modules : ModulesOption
  mainFields : Option (List MainFieldUserItem)
  mainFiles : Option (List String)
  plugins : List Nat
  pnpApi : Bool
  resolveToContext : Option Bool

/-- Normalized `ResolveOptions` (ResolverFactory.js lines 66-85). -/
structure ResolveOptions where
  aliasList : List AliasEntry
  aliasFields : List (List String)
  cacheWithContext : Bool
  descriptionFiles : List String
  enforceExtension : Bool
  extensions : List String
  unsafeCache : Bool
  symlinks : Bool
  modules : List ModuleEntry
  mainFields : List MainFieldOptions
  mainFiles : List String
  plugins : List Nat
  pnpApi : Bool
  resolveToContext : Bool

/-- The `modules` argument of `mergeFilteredToArray` inside `createOptions`
(lines 141-146): an array is used as is, a nonempty single string is wrapped,
and a missing or falsy (empty-string) option falls back to
`["node_modules"]`. -/
def modulesInput : ModulesOption → List String
  | .list ss => ss
  | .single s => if s == "" then ["node_modules"] else [s]
  | .undef => ["node_modules"]

/-- `createOptions` (ResolverFactory.js lines 107-175), field by field. -/
def createOptions (options : UserResolveOptions) : ResolveOptions :=
  { aliasList :=
      match options.aliasOption with
      | .obj kvs => aliasOptionsToArray kvs
      | .arr entries => entries
      | .undef => []
    aliasFields := options.aliasFields.map fun item =>
      match item with
      | .inl s => [s]
      | .inr ss => ss
    cacheWithContext := options.cacheWithContext.getD true
    descriptionFiles := options.descriptionFiles.getD ["package.json"]
    enforceExtension := options.enforceExtension.getD false
    extensions := options.extensions.getD [".js", ".json", ".node"]
    unsafeCache := options.unsafeCache
    symlinks := options.symlinks.getD true
    modules := mergeFilteredToArray (modulesInput options.modules) modulesFilter
    mainFields := (options.mainFields.getD [.str "main"]).map normalizeMainField
    mainFiles := options.mainFiles.getD ["index"]
    plugins := options.plugins
    pnpApi := options.pnpApi
    resolveToContext := options.resolveToContext.getD false }

/-! ## Plugin instances

The factory instantiates plugin objects; each constructor below records the
constructor arguments of the corresponding `new XPlugin(...)` call in
`createResolver`.  Opaque user plugins are `user n`. -/

inductive Plugin where
  | user (id : Nat)
  | unsafeCachePlugin (source : String) (withContext : Bool) (newHook : String)
  | parsePlugin (source target : String)
  | descriptionFilePlugin (source : String) (filenames : List String) (pathIsFile : Bool) (target : String)
  | nextPlugin (source target : String)
  | aliasPlugin (source : String) (entries : List AliasEntry) (target : String)
  | aliasFieldPlugin (source : String) (field : List String) (target : String)
  | moduleKindPlugin (source target : String)
  | joinRequestPlugin (source target : String)
  | pnpPlugin (source target : String)
  | modulesInHierachicDirectoriesPlugin (source : String) (dirs : List String) (target : String)
  | modulesInRootPlugin (source : String) (dir : String) (target : String)
  | joinRequestPartPlugin (source target : String)
  | fileKindPlugin (source : String) (message : Option String) (target : String)
  | directoryExistsPlugin (source target : String)
  | tryNextPlugin (source : String) (message : String) (target : String)
  | useFilePlugin (source : String) (filename : String) (target : String)
  | mainFieldPlugin (source : String) (options : MainFieldOptions) (target : String)
  | appendPlugin (source : String) (appending : String) (target : String)
  | fileExistsPlugin (source target : String)
  | symlinkPlugin (source target : String)
  | resultPlugin
deriving DecidableEq

/-- The tap the `modules.forEach` of `createResolver` (lines 270-276) installs
for one normalized `modules` entry: hierarchic lookup for a merged group,
single-root lookup for a root path. -/
def moduleEntryTap : ModuleEntry → Plugin
  | .hier dirs => .modulesInHierachicDirectoriesPlugin "raw-module" dirs "module"
  | .root dir => .modulesInRootPlugin "raw-module" dir "module"

/-- The pipeline-assembly section of `createResolver` (ResolverFactory.js lines
204-400) applied to already-normalized options: the list starts with the user
plugins (`const plugins = userPlugins.slice()`, line 204) and the built-in taps
are pushed after it, in source order.  The `plugin.apply(resolver)` loop at
lines 404-410 installs taps in exactly this list order. -/
def resolverPlugins (o : ResolveOptions) : List Plugin :=
  (o.plugins.map Plugin.user)
  -- resolve
  ++ (if o.unsafeCache then
        [.unsafeCachePlugin "resolve" o.cacheWithContext "new-resolve",
         .parsePlugin "new-resolve" "parsed-resolve"]
      else
        [.parsePlugin "resolve" "parsed-resolve"])
  -- parsed-resolve
  ++ [.descriptionFilePlugin "parsed-resolve" o.descriptionFiles false "described-resolve",
      .nextPlugin "after-parsed-resolve" "described-resolve"]
  -- described-resolve
  ++ (if 0 < o.aliasList.length then [.aliasPlugin "described-resolve" o.aliasList "resolve"] else [])
  ++ o.aliasFields.map (fun item => .aliasFieldPlugin "described-resolve" item "resolve")
  ++ [.moduleKindPlugin "after-described-resolve" "raw-module",
      .joinRequestPlugin "after-described-resolve" "relative"]
  -- raw-module
  ++ (if o.pnpApi then [.pnpPlugin "raw-module" "relative"] else [])
  ++ o.modules.map moduleEntryTap
  -- module
  ++ [.joinRequestPartPlugin "module" "resolve-in-directory"]
  -- resolve-in-directory
  ++ (if o.resolveToContext then [] else
        [.fileKindPlugin "resolve-in-directory" (some "single file module") "undescribed-raw-file"])
  ++ [.directoryExistsPlugin "resolve-in-directory" "resolve-in-existing-directory"]
  -- resolve-in-existing-directory
  ++ [.joinRequestPlugin "resolve-in-existing-directory" "relative"]
  -- relative
  ++ [.descriptionFilePlugin "relative" o.descriptionFiles true "described-relative",
      .nextPlugin "after-relative" "described-relative"]
  -- described-relative
  ++ (if o.resolveToContext then [] else
        [.fileKindPlugin "described-relative" none "raw-file"])
  ++ [.tryNextPlugin "described-relative" "as directory" "directory"]
  -- directory
  ++ [.directoryExistsPlugin "directory" "undescribed-existing-directory"]
  ++ (if o.resolveToContext then
        -- undescribed-existing-directory
        [.nextPlugin "undescribed-existing-directory" "resolved"]
      else
        -- undescribed-existing-directory
        [.descriptionFilePlugin "undescribed-existing-directory" o.descriptionFiles false "existing-directory"]
        ++ o.mainFiles.map (fun item => .useFilePlugin "undescribed-existing-directory" item "undescribed-raw-file")
        -- described-existing-directory
        ++ o.mainFields.map (fun item => .mainFieldPlugin "existing-directory" item "resolve-in-existing-directory")
        ++ o.mainFiles.map (fun item => .useFilePlugin "existing-directory" item "undescribed-raw-file")
        -- undescribed-raw-file
        ++ [.descriptionFilePlugin "undescribed-raw-file" o.descriptionFiles true "raw-file",
            .nextPlugin "after-undescribed-raw-file" "raw-file"]
        -- raw-file
        ++ (if o.enforceExtension then [] else
              [.tryNextPlugin "raw-file" "no extension" "file"])
        ++ o.extensions.map (fun item => .appendPlugin "raw-file" item "file")
        -- file
        ++ (if 0 < o.aliasList.length then [.aliasPlugin "file" o.aliasList "resolve"] else [])
        ++ o.aliasFields.map (fun item => .aliasFieldPlugin "file" item "resolve")
        ++ [.fileExistsPlugin "file" "existing-file"]
        -- existing-file
        ++ (if o.symlinks then [.symlinkPlugin "existing-file" "existing-file"] else [])
        ++ [.nextPlugin "existing-file" "resolved"])
  -- resolved
  ++ [.resultPlugin]

/-- `exports.createResolver` (ResolverFactory.js lines 181-413), as the ordered
list of plugin instances it applies to the resolver. -/
def createResolver (options : UserResolveOptions) : List Plugin :=
  resolverPlugins (createOptions options)

/-- The source hook name a plugin instance taps (its constructor `source`
argument).  Opaque user plugins tap unknown hooks, recorded as `""`;
`ResultPlugin` taps `resolver.hooks.resolved` directly. -/
def pluginSource : Plugin → String
  | .user _ => ""
  | .unsafeCachePlugin s _ _ => s
  | .parsePlugin s _ => s
  | .descriptionFilePlugin s _ _ _ => s
  | .nextPlugin s _ => s
  | .aliasPlugin s _ _ => s
  | .aliasFieldPlugin s _ _ => s
  | .moduleKindPlugin s _ => s
  | .joinRequestPlugin s _ => s
  | .pnpPlugin s _ => s
  | .modulesInHierachicDirectoriesPlugin s _ _ => s
  | .modulesInRootPlugin s _ _ => s
  | .joinRequestPartPlugin s _ => s
  | .fileKindPlugin s _ _ => s
  | .directoryExistsPlugin s _ => s
  | .tryNextPlugin s _ _ => s
  | .useFilePlugin s _ _ => s
  | .mainFieldPlugin s _ _ => s
  | .appendPlugin s _ _ => s
  | .fileExistsPlugin s _ => s
  | .symlinkPlugin s _ => s
  | .resultPlugin => "resolved"

/-! ## Model filesystem -/

/-- A finite model filesystem: regular files, directories, parsed JSON
contents of description files, and symlink targets. -/
structure MFS where
  files : List String
  dirs : List String
  jsons : List (String × JSValue)
  symlinks : List (String × String)

/-- Stat: the path is a regular file. -/
def MFS.isFile (fs : MFS) (p : String) : Bool :=
  fs.files.contains p

/-- Stat: the path is a directory. -/
def MFS.isDir (fs : MFS) (p : String) : Bool :=
  fs.dirs.contains p

/-- Parsed JSON content of a description file. -/
def MFS.readJson (fs : MFS) (p : String) : Option JSValue :=
  fs.jsons.lookup p

/-! ## Hook dispatch (modelled from the spec) -/

/-- Modelled from the spec: the outcome one tap (or one whole hook dispatch)
delivers through its callback, §4.1: a terminal resolution, an error, or a
yield that passes control to the next tap. -/
inductive ROutcome where
  | done (req : RReq)
  | failed (msg : String)
  | yielded

/-- Modelled from the spec: the stage decoding of hook names performed by
`Resolver.getHook` (not under `src/`): a `before-` prefix taps the base hook
at an early stage, an `after-` prefix at a late stage.  Stages are encoded
0 (before), 1 (normal), 2 (after). -/
def parseStage (s : String) : String × Nat :=
  if strBegins s "before-" then (strDropChars 7 s, 0)
  else if strBegins s "after-" then (strDropChars 6 s, 2)
  else (s, 1)

/-- Whether a plugin taps the given hook at the given stage. -/
def tapMatches (hook : String) (stage : Nat) (p : Plugin) : Bool :=
  let hs := parseStage (pluginSource p)
  hs.1 == hook && hs.2 == stage

/-- Modelled from the spec: the ordered tap list of a hook - taps sorted by
stage, taps of equal stage in installation order (tapable semantics assumed by
the factory's `before-`/`after-` hook names). -/
def tapsFor (ps : List Plugin) (hook : String) : List Plugin :=
  ps.filter (tapMatches hook 0) ++ ps.filter (tapMatches hook 1)
    ++ ps.filter (tapMatches hook 2)

/-- Split a character list at the first occurrence of `c`; `none` when `c`
does not occur. -/
def splitFirstCharAux (c : Char) : List Char → List Char → Option (String × String)
  | [], _ => none
  | x :: rest, acc =>
    if x = c then some (String.mk acc.reverse, String.mk rest)
    else splitFirstCharAux c rest (x :: acc)

/-- Split a string at the first occurrence of a character, the separator
belonging to neither part. -/
def splitFirstChar (s : String) (c : Char) : Option (String × String) :=
  splitFirstCharAux c s.data []

/-- Modelled from the spec: the request parser (`ParsePlugin`/`Resolver.parse`,
not under `src/`), §4.3: split off a trailing `?...` query and `#...` fragment,
set `directory` from a trailing slash (removing it from the request), and
classify `module` from the path type.  Returns
(request, query, fragment, module, directory). -/
def parseIdentifier (s : String) : String × String × String × Bool × Bool :=
  let qsplit :=
    match splitFirstChar s '?' with
    | none => (s, "")
    | some (a, b) => (a, b)
  let fsplit :=
    match splitFirstChar qsplit.1 '#' with
    | none => (qsplit.1, "")
    | some (a, b) => (a, b)
  let core0 := fsplit.1
  let dir := strEnds core0 "/"
  let core := if dir then strDropLastChar core0 else core0
  (core, qsplit.2, fsplit.2, getType core == PathType.normal, dir)

/-- Modelled from the spec: splitting a module request at its first `/` into
the module name and the remaining request (`JoinRequestPartPlugin`, §4.3:
"preserving a single leading path segment"). -/
def splitFirstSlash (s : String) : Option (String × String) :=
  splitFirstChar s '/'

/-- Modelled from the spec: canonicalize the symlinks occurring along a path
(`SymlinkPlugin`, §4.3), substituting each symlinked ancestor by its target. -/
def canonicalizePath (fs : MFS) (p : String) : String :=
  (splitSlashes p).foldl
    (fun acc seg =>
      let q := if seg == "" then acc else acc ++ "/" ++ seg
      match fs.symlinks.lookup q with
      | some t => t
      | none => q)
    ""

/-- Modelled from the spec: the description-file walk (`DescriptionFilePlugin`,
not under `src/`), §4.3: starting from `path` (or its parent when the path
denotes a file candidate), find in the nearest ancestor directory the first
existing name of `filenames` and return (file, root, parsed data). -/
def findDescriptionFile (fs : MFS) (filenames : List String) (startDir : String) :
    Option (String × String × Option JSValue) :=
  (ancestorDirs startDir).findSome? fun dir =>
    filenames.findSome? fun fn =>
      let file := joinPath dir fn
      if fs.isFile file then some (file, dir, fs.readJson file) else none

/-- Path of `p` relative to the root `dir`, in `./...` form. -/
def relativeToRoot (dir p : String) : String :=
  if p == dir then "."
  else if dir.data.isPrefixOf p.data then "." ++ strDropChars (strLen dir) p
  else "."

/-! ## Step semantics (§4.3) and the dispatch engine (§4.1, §4.4) -/

/-- Modelled from the spec: sibling forks enqueued by one tap, attempted in
order with first-success bail; errors are accumulated and only the first is
reported when no fork succeeds (§4.1 parallel-bail). -/
def tryForks (recurse : String → RReq → ROutcome) (target : String) :
    List RReq → Option String → ROutcome
  | [], none => .yielded
  | [], some e => .failed e
  | r :: rest, firstErr =>
    match recurse target r with
    | .done x => .done x
    | .yielded => tryForks recurse target rest firstErr
    | .failed e =>
      tryForks recurse target rest (match firstErr with | some e0 => some e0 | none => some e)

/-- Modelled from the spec: the AliasPlugin match test (§4.3, `AliasPlugin.js`
not under `src/`): an `onlyModule` entry matches only the exact name, any
other entry also matches `name + "/"` prefixes. -/
def aliasMatches (request : String) (e : AliasEntry) : Bool :=
  if e.onlyModule then request == e.name
  else request == e.name || strBegins request (e.name ++ "/")

/-- Modelled from the spec: one AliasPlugin entry applied to a request
(§4.3): `false` fails with "ignored"; otherwise each replacement string forks
with the matched name prefix replaced, skipping rewrites equal to the
original. -/
def aliasApply (recurse : String → RReq → ROutcome) (target : String) (req : RReq)
    (r : String) (e : AliasEntry) : Option ROutcome :=
  if aliasMatches r e then
    match e.aliasTo with
    | .ignore => some (.failed "ignored")
    | .one a =>
      let newRequest := a ++ strDropChars (strLen e.name) r
      if newRequest == r then none
      else some (tryForks recurse target [{ req with request := some newRequest }] none)
    | .many as =>
      let reqs := (as.map fun a => a ++ strDropChars (strLen e.name) r).filter (fun n => n != r)
      some (tryForks recurse target (reqs.map fun n => { req with request := some n }) none)
  else none

/-- Modelled from the spec: AliasPlugin over its entry list, first matching
entry that produces an outcome wins. -/
def aliasRun (recurse : String → RReq → ROutcome) (target : String) (req : RReq)
    (r : String) : List AliasEntry → ROutcome
  | [] => .yielded
  | e :: rest =>
    match aliasApply recurse target req r e with
    | some out =>
      match out with
      | .yielded => aliasRun recurse target req r rest
      | out => out
    | none => aliasRun recurse target req r rest

/-- Modelled from the spec: the behaviour of one installed tap (§4.3 step
semantics) for every step plugin whose source file is not under `src/`;
`mainFieldPlugin` alone follows the translated source
(`src/lib/MainFieldPlugin.js`, via `mainFieldStep`).  `recurse` is
`resolver.doResolve` into a named target hook; opaque user plugins and the
package-manager lookup without an API are inert; the unsafe cache is
transparent forwarding, its memo being unobservable in a single run. -/
def runPlugin (fs : MFS) (recurse : String → RReq → ROutcome) (p : Plugin) (req : RReq) :
    ROutcome :=
  match p with
  | .user _ => .yielded
  | .unsafeCachePlugin _ _ newHook => recurse newHook req
  | .parsePlugin _ target =>
    match req.request with
    | none => .yielded
    | some s =>
      if s == "" then .yielded
      else
        let parsed := parseIdentifier s
        recurse target { req with
          request := some parsed.1
          query := parsed.2.1
          fragment := parsed.2.2.1
          module := parsed.2.2.2.1
          directory := parsed.2.2.2.2 }
  | .descriptionFilePlugin _ filenames pathIsFile target =>
    let startDir := if pathIsFile then dirname req.path else req.path
    match findDescriptionFile fs filenames startDir with
    | none => .yielded
    | some found =>
      recurse target { req with
        descriptionFilePath := some found.1
        descriptionFileRoot := some found.2.1
        descriptionFileData := found.2.2
        relativePath := some (relativeToRoot found.2.1 req.path) }
  | .nextPlugin _ target => recurse target req
  | .aliasPlugin _ entries target =>
    aliasRun recurse target req (req.request.getD "") entries
  | .aliasFieldPlugin _ field target =>
    match jsTraverse req.descriptionFileData field with
    | some (.obj table) =>
      match table.lookup (req.relativePath.getD "") with
      | some (.bool false) => .failed "ignored"
      | some (.str s) => recurse target { req with request := some s }
      | _ => .yielded
    | _ => .yielded
  | .moduleKindPlugin _ target =>
    if req.module then recurse target { req with module := false } else .yielded
  | .joinRequestPlugin _ target =>
    recurse target { req with
      path := joinPath req.path (req.request.getD "")
      relativePath := req.relativePath.map fun rp => joinPath rp (req.request.getD "")
      request := none }
  | .pnpPlugin _ _ => .yielded
  | .modulesInHierachicDirectoriesPlugin _ dirs target =>
    let candidates :=
      ((ancestorDirs req.path).flatMap fun a =>
        dirs.reverse.map fun d => joinPath a d).filter fs.isDir
    tryForks recurse target (candidates.map fun c => { req with path := c }) none
  | .modulesInRootPlugin _ dir target =>
    recurse target { req with path := dir }
  | .joinRequestPartPlugin _ target =>
    let r := req.request.getD ""
    match splitFirstSlash r with
    | none =>
      recurse target { req with
        path := joinPath req.path r
        relativePath := req.relativePath.map fun rp => joinPath rp r
        request := some "" }
    | some (moduleName, rest) =>
      recurse target { req with
        path := joinPath req.path moduleName
        relativePath := req.relativePath.map fun rp => joinPath rp moduleName
        request := some ("./" ++ rest) }
  | .fileKindPlugin _ _ target =>
    if req.directory then .yielded else recurse target { req with directory := false }
  | .directoryExistsPlugin _ target =>
    if fs.isDir req.path then recurse target req else .yielded
  | .tryNextPlugin _ _ target => recurse target req
  | .useFilePlugin _ filename target =>
    recurse target { req with
      path := joinPath req.path filename
      relativePath := req.relativePath.map fun rp => joinPath rp filename }
  | .mainFieldPlugin _ opts target =>
    match mainFieldStep opts req with
    | .yielded => .yielded
    | .thrown => .failed "TypeError"
    | .fork obj => recurse target obj
  | .appendPlugin _ appending target =>
    if strEnds req.path appending then .yielded
    else
      recurse target { req with
        path := req.path ++ appending
        relativePath := req.relativePath.map fun rp => rp ++ appending }
  | .fileExistsPlugin _ target =>
    if fs.isFile req.path then recurse target req else .yielded
  | .symlinkPlugin _ target =>
    let c := canonicalizePath fs req.path
    if c == req.path then .yielded else recurse target { req with path := c }
  | .resultPlugin => .done req

/-- Modelled from the spec: async-series-bail over the taps of one hook
(§4.1): the first tap finishing with a result or an error short-circuits the
rest; when every tap yields the hook yields. -/
def runTaps (fs : MFS) (recurse : String → RReq → ROutcome) :
    List Plugin → RReq → ROutcome
  | [], _ => .yielded
  | p :: rest, req =>
    match runPlugin fs recurse p req with
    | .yielded => runTaps fs recurse rest req
    | out => out

/-- Modelled from the spec: hook dispatch with a recursion budget standing in
for the engine's live-stack cycle fingerprinting (§4.4): running out of budget
is the "recursion" error.  The fixture runs below stay far below the budget. -/
def dispatch (ps : List Plugin) (fs : MFS) : Nat → String → RReq → ROutcome
  | 0, _, _ => .failed "recursion"
  | fuel + 1, hook, req => runTaps fs (dispatch ps fs fuel) (tapsFor ps hook) req

/-- Modelled from the spec: `Resolver.resolve` (§6): drive a fresh request
with the caller's context directory through the `resolve` hook. -/
def resolveRun (ps : List Plugin) (fs : MFS) (fuel : Nat) (ctxDir request : String) :
    ROutcome :=
  dispatch ps fs fuel "resolve"
    { path := ctxDir
      request := some request
      query := ""
      fragment := ""
      module := false
      directory := false
      descriptionFilePath := none
      descriptionFileRoot := none
      descriptionFileData := none
      relativePath := none
      alreadyTriedMainField := none }

/-- The successful result path of an outcome, if any. -/
def resultPath : ROutcome → Option String
  | .done r => some r.path
  | _ => none

/-- The run ended in an error delivered to the callback: either a step failed
or the pipeline exhausted every alternative (§7 no-resolution). -/
def isError : ROutcome → Bool
  | .done _ => false
  | _ => true

/-- The run exhausted every alternative without an explicit step error. -/
def isNoResolution : ROutcome → Bool
  | .yielded => true
  | _ => false

/-! ## The extensions test fixture (`test/extensions.js` with its fixture
tree, reconstructed from the expectations the tests assert) -/

/-- The fixture filesystem of `test/fixtures/extensions`. -/
def fixtureFS : MFS :=
  { files :=
      ["/fx/foo.ts", "/fx/foo.js", "/fx/dir/index.ts", "/fx/index.js",
       "/fx/package.json", "/fx/node_modules/module.js",
       "/fx/node_modules/module/index.ts"]
    dirs := ["/", "/fx", "/fx/dir", "/fx/node_modules", "/fx/node_modules/module"]
    jsons := [("/fx/package.json", .obj [("main", .str "./index.js")])]
    symlinks := [] }

/-- The resolver options of `test/extensions.js`: `extensions: [".ts", ".js"]`,
everything else defaulted. -/
def testUserOptions : UserResolveOptions :=
  { aliasOption := .undef
    aliasFields := []
    cacheWithContext := none
    descriptionFiles := none
    enforceExtension := none
    extensions := some [".ts", ".js"]
    unsafeCache := false
    symlinks := none
    modules := .undef
    mainFields := none
    mainFiles := none
    plugins := []
    pnpApi := false
    resolveToContext := some false }

/-- One resolution against the extensions fixture. -/
def runFixture (request : String) : ROutcome :=
  resolveRun (createResolver testUserOptions) fixtureFS 60 "/fx" request

/-! ## The seven scenarios of `test/extensions.js`, replayed on the model.
These validate the spec-modelled engine against the repository's own test
expectations before it is used to settle any claim. -/

/-- Test "should resolve according to order of provided extensions". -/
theorem fixtureExtensionOrder : resultPath (runFixture "./foo") = some "/fx/foo.ts" := by
  decide

/-- Test "should resolve according to order of provided extensions (dir index)". -/
theorem fixtureDirIndex : resultPath (runFixture "./dir") = some "/fx/dir/index.ts" := by
  decide

/-- Test "should resolve according to main field in module root". -/
theorem fixtureMainField : resultPath (runFixture ".") = some "/fx/index.js" := by
  decide

/-- Test "should resolve single file module before directory". -/
theorem fixtureSingleFileModule :
    resultPath (runFixture "module") = some "/fx/node_modules/module.js" := by
  decide

/-- Test "should resolve trailing slash directory before single file". -/
theorem fixtureTrailingSlashDir :
    resultPath (runFixture "module/") = some "/fx/node_modules/module/index.ts" := by
  decide

/-- Test "should not resolve to file when request has a trailing slash
(relative)". -/
theorem fixtureTrailingSlashRelative : isNoResolution (runFixture "./foo.js/") = true := by
  decide

/-- Test "should not resolve to file when request has a trailing slash
(module)". -/
theorem fixtureTrailingSlashModule : isNoResolution (runFixture "module.js/") = true := by
  decide

/-! ## Maximal-run characterization of `mergeFilteredToArray` (claim C7) -/

/-- Prepend a group to an entry list: merged into the head group when the list
starts with one, otherwise as a new group. -/
def hierExtend (g : List String) : List ModuleEntry → List ModuleEntry
  | .hier h :: rest => .hier (g ++ h) :: rest
  | rest => .hier g :: rest

/-- The grouping the spec describes: each maximal run of consecutive entries
accepted by the filter becomes one group, every other entry stays a singleton,
all in input order.  A filtered entry joins the group formed by the filtered
entries immediately following it. -/
def groupMaximalRuns (filter : String → Bool) : List String → List ModuleEntry
  | [] => []
  | x :: xs =>
    if filter x then hierExtend [x] (groupMaximalRuns filter xs)
    else .root x :: groupMaximalRuns filter xs

theorem hierExtend_hierExtend (g h : List String) (l : List ModuleEntry) :
    hierExtend g (hierExtend h l) = hierExtend (g ++ h) l := by
  match l with
  | .hier k :: rest => simp [hierExtend]
  | [] => simp [hierExtend]
  | .root s :: rest => simp [hierExtend]

theorem foldl_mergeStep_append (f : String → Bool) (xs : List String) :
    ∀ (a : List ModuleEntry) (e : ModuleEntry),
      List.foldl (mergeStep f) (a ++ [e]) xs = a ++ List.foldl (mergeStep f) [e] xs := by
  induction xs with
  | nil => intro a e; simp
  | cons x xs ih =>
    intro a e
    rw [List.foldl_cons, List.foldl_cons]
    by_cases hf : f x = true
    · cases e with
      | hier g =>
        have h1 : mergeStep f (a ++ [.hier g]) x = a ++ [.hier (g ++ [x])] := by
          simp [mergeStep, hf, List.getLast?_concat, List.dropLast_concat]
        have h2 : mergeStep f [ModuleEntry.hier g] x = [.hier (g ++ [x])] := by
          simp [mergeStep, hf, List.getLast?_concat]
        rw [h1, h2, ih a (ModuleEntry.hier (g ++ [x]))]
      | root s =>
        have h1 : mergeStep f (a ++ [.root s]) x = (a ++ [.root s]) ++ [.hier [x]] := by
          simp [mergeStep, hf, List.getLast?_concat]
        have h2 : mergeStep f [ModuleEntry.root s] x = [.root s] ++ [.hier [x]] := by
          simp [mergeStep, hf, List.getLast?_concat]
        rw [h1, h2, ih (a ++ [ModuleEntry.root s]) (ModuleEntry.hier [x]), ih [ModuleEntry.root s] (ModuleEntry.hier [x])]
        simp
    · have hf2 : f x = false := by simpa using hf
      have h1 : mergeStep f (a ++ [e]) x = (a ++ [e]) ++ [.root x] := by
        simp [mergeStep, hf2]
      have h2 : mergeStep f [e] x = [e] ++ [.root x] := by
        simp [mergeStep, hf2]
      rw [h1, h2, ih (a ++ [e]) (ModuleEntry.root x), ih [e] (ModuleEntry.root x)]
      simp

theorem foldl_mergeStep_single (f : String → Bool) (xs : List String) :
    (∀ s, List.foldl (mergeStep f) [.root s] xs = .root s :: groupMaximalRuns f xs)
    ∧ (∀ g, List.foldl (mergeStep f) [.hier g] xs = hierExtend g (groupMaximalRuns f xs)) := by
  induction xs with
  | nil =>
    constructor
    · intro s; simp [groupMaximalRuns, hierExtend]
    · intro g; simp [groupMaximalRuns, hierExtend]
  | cons x xs ih =>
    obtain ⟨ih1, ih2⟩ := ih
    by_cases hf : f x = true
    · constructor
      · intro s
        rw [List.foldl_cons]
        have h2 : mergeStep f [ModuleEntry.root s] x = [.root s] ++ [.hier [x]] := by
          simp [mergeStep, hf, List.getLast?_concat]
        rw [h2, foldl_mergeStep_append f xs [ModuleEntry.root s] (ModuleEntry.hier [x]), ih2 [x]]
        simp [groupMaximalRuns, hf]
      · intro g
        rw [List.foldl_cons]
        have h2 : mergeStep f [ModuleEntry.hier g] x = [.hier (g ++ [x])] := by
          simp [mergeStep, hf, List.getLast?_concat]
        rw [h2, ih2 (g ++ [x])]
        simp [groupMaximalRuns, hf, hierExtend_hierExtend]
    · have hf2 : f x = false := by simpa using hf
      constructor
      · intro s
        rw [List.foldl_cons]
        have h2 : mergeStep f [ModuleEntry.root s] x = [.root s] ++ [.root x] := by
          simp [mergeStep, hf2]
        rw [h2, foldl_mergeStep_append f xs [ModuleEntry.root s] (ModuleEntry.root x), ih1 x]
        simp [groupMaximalRuns, hf2]
      · intro g
        rw [List.foldl_cons]
        have h2 : mergeStep f [ModuleEntry.hier g] x = [.hier g] ++ [.root x] := by
          simp [mergeStep, hf2]
        rw [h2, foldl_mergeStep_append f xs [ModuleEntry.hier g] (ModuleEntry.root x), ih1 x]
        simp [groupMaximalRuns, hf2, hierExtend]

theorem mergeFilteredToArray_eq_groupMaximalRuns (array : List String) (f : String → Bool) :
    mergeFilteredToArray array f = groupMaximalRuns f array := by
  cases array with
  | nil => rfl
  | cons x xs =>
    unfold mergeFilteredToArray
    rw [List.foldl_cons]
    by_cases hf : f x = true
    · have h0 : mergeStep f [] x = [.hier [x]] := by simp [mergeStep, hf]
      rw [h0, (foldl_mergeStep_single f xs).2 [x]]
      simp [groupMaximalRuns, hf]
    · have hf2 : f x = false := by simpa using hf
      have h0 : mergeStep f [] x = [.root x] := by simp [mergeStep, hf2]
      rw [h0, (foldl_mergeStep_single f xs).1 x]
      simp [groupMaximalRuns, hf2]

/-! ## Tap predicates used by the structural claims -/

/-- Taps whose source hook is `raw-file`. -/
def isRawFileTap (p : Plugin) : Bool :=
  pluginSource p == "raw-file"

/-- Taps whose source hook is `resolve-in-directory`. -/
def isResolveInDirectoryTap (p : Plugin) : Bool :=
  pluginSource p == "resolve-in-directory"

/-- Taps whose source hook is `undescribed-existing-directory`. -/
def isUndescribedExistingDirectoryTap (p : Plugin) : Bool :=
  pluginSource p == "undescribed-existing-directory"

/-- Module-lookup taps (either module-root plugin kind). -/
def isModulesTap : Plugin → Bool
  | .modulesInHierachicDirectoriesPlugin _ _ _ => true
  | .modulesInRootPlugin _ _ _ => true
  | _ => false

/-- Main-field taps. -/
def isMainFieldTap : Plugin → Bool
  | .mainFieldPlugin _ _ _ => true
  | _ => false

/-- Taps belonging to the file branch of the pipeline: the plugin kinds that
`createResolver` only installs when `resolveToContext` is disabled. -/
def isFileBranchTap : Plugin → Bool
  | .fileKindPlugin _ _ _ => true
  | .mainFieldPlugin _ _ _ => true
  | .useFilePlugin _ _ _ => true
  | .appendPlugin _ _ _ => true
  | .fileExistsPlugin _ _ => true
  | .symlinkPlugin _ _ => true
  | _ => false

@[simp] theorem pluginSource_moduleEntryTap (m : ModuleEntry) :
    pluginSource (moduleEntryTap m) = "raw-module" := by
  cases m <;> rfl

@[simp] theorem isModulesTap_moduleEntryTap (m : ModuleEntry) :
    isModulesTap (moduleEntryTap m) = true := by
  cases m <;> rfl

@[simp] theorem isFileBranchTap_moduleEntryTap (m : ModuleEntry) :
    isFileBranchTap (moduleEntryTap m) = false := by
  cases m <;> rfl

theorem filter_map_eq_nil {α β : Type} {p : β → Bool} {f : α → β}
    (h : ∀ a, p (f a) = false) : ∀ l : List α, (l.map f).filter p = [] := by
  intro l
  induction l with
  | nil => rfl
  | cons x xs ih => simp [h, ih]

theorem filter_map_eq_self {α β : Type} {p : β → Bool} {f : α → β}
    (h : ∀ a, p (f a) = true) : ∀ l : List α, (l.map f).filter p = l.map f := by
  intro l
  induction l with
  | nil => rfl
  | cons x xs ih => simp [h, ih]

@[simp] theorem filter_moduleEntryTap_rawFile (l : List ModuleEntry) :
    (l.map moduleEntryTap).filter isRawFileTap = [] :=
  filter_map_eq_nil (fun m => by cases m <;> rfl) l

@[simp] theorem filter_moduleEntryTap_resolveInDirectory (l : List ModuleEntry) :
    (l.map moduleEntryTap).filter isResolveInDirectoryTap = [] :=
  filter_map_eq_nil (fun m => by cases m <;> rfl) l

@[simp] theorem filter_moduleEntryTap_undescribedExistingDirectory (l : List ModuleEntry) :
    (l.map moduleEntryTap).filter isUndescribedExistingDirectoryTap = [] :=
  filter_map_eq_nil (fun m => by cases m <;> rfl) l

@[simp] theorem filter_moduleEntryTap_mainField (l : List ModuleEntry) :
    (l.map moduleEntryTap).filter isMainFieldTap = [] :=
  filter_map_eq_nil (fun m => by cases m <;> rfl) l

@[simp] theorem filter_moduleEntryTap_modules (l : List ModuleEntry) :
    (l.map moduleEntryTap).filter isModulesTap = l.map moduleEntryTap :=
  filter_map_eq_self (fun m => by cases m <;> rfl) l

@[simp] theorem all_moduleEntryTap_notFileBranch (l : List ModuleEntry) :
    (l.map moduleEntryTap).all (fun p => !isFileBranchTap p) = true := by
  induction l with
  | nil => rfl
  | cons x xs ih => cases x <;> simp_all [isFileBranchTap, moduleEntryTap]

/-- With `resolveToContext` disabled, the taps installed on the `raw-file` hook
are exactly: the extension-less try-next step unless `enforceExtension`, then
one append tap per configured extension, in order. -/
theorem rawFileTaps_eq (o : ResolveOptions) (h : o.resolveToContext = false) :
    (resolverPlugins o).filter isRawFileTap =
      (if o.enforceExtension then [] else [.tryNextPlugin "raw-file" "no extension" "file"])
        ++ o.extensions.map (fun e => .appendPlugin "raw-file" e "file") := by
  simp only [resolverPlugins, h, if_false, List.filter_append, filter_moduleEntryTap_rawFile]
  by_cases hu : o.unsafeCache <;> by_cases hp : o.pnpApi <;>
    by_cases ha : 0 < o.aliasList.length <;> by_cases he : o.enforceExtension <;>
    by_cases hs : o.symlinks <;>
    simp [hu, hp, ha, he, hs, isRawFileTap, pluginSource, Function.comp_def,
      List.filter_map]

/-- With `resolveToContext` disabled, the taps installed on the
`resolve-in-directory` hook are exactly the single-file-module FileKind branch
followed by the DirectoryExists branch. -/
theorem resolveInDirectoryTaps_eq (o : ResolveOptions) (h : o.resolveToContext = false) :
    (resolverPlugins o).filter isResolveInDirectoryTap =
      [.fileKindPlugin "resolve-in-directory" (some "single file module") "undescribed-raw-file",
       .directoryExistsPlugin "resolve-in-directory" "resolve-in-existing-directory"] := by
  simp only [resolverPlugins, h, if_false, List.filter_append,
    filter_moduleEntryTap_resolveInDirectory]
  by_cases hu : o.unsafeCache <;> by_cases hp : o.pnpApi <;>
    by_cases ha : 0 < o.aliasList.length <;> by_cases he : o.enforceExtension <;>
    by_cases hs : o.symlinks <;>
    simp [hu, hp, ha, he, hs, isResolveInDirectoryTap, pluginSource, Function.comp_def,
      List.filter_map]

/-- The main-field taps the factory installs: none when resolving to a
context, otherwise one per configured main field, in order, tapping
`existing-directory` and targeting `resolve-in-existing-directory`. -/
theorem mainFieldTaps_eq (o : ResolveOptions) :
    (resolverPlugins o).filter isMainFieldTap =
      (if o.resolveToContext then [] else
        o.mainFields.map (fun item =>
          .mainFieldPlugin "existing-directory" item "resolve-in-existing-directory")) := by
  simp only [resolverPlugins, List.filter_append, filter_moduleEntryTap_mainField]
  by_cases hr : o.resolveToContext <;> by_cases hu : o.unsafeCache <;>
    by_cases hp : o.pnpApi <;> by_cases ha : 0 < o.aliasList.length <;>
    by_cases he : o.enforceExtension <;> by_cases hs : o.symlinks <;>
    simp [hr, hu, hp, ha, he, hs, isMainFieldTap, Function.comp_def, List.filter_map]

/-- The module-lookup taps the factory installs: one per normalized `modules`
entry, in configured order. -/
theorem modulesTaps_eq (o : ResolveOptions) :
    (resolverPlugins o).filter isModulesTap = o.modules.map moduleEntryTap := by
  simp only [resolverPlugins, List.filter_append, filter_moduleEntryTap_modules]
  by_cases hr : o.resolveToContext <;> by_cases hu : o.unsafeCache <;>
    by_cases hp : o.pnpApi <;> by_cases ha : 0 < o.aliasList.length <;>
    by_cases he : o.enforceExtension <;> by_cases hs : o.symlinks <;>
    simp [hr, hu, hp, ha, he, hs, isModulesTap, Function.comp_def, List.filter_map]

/-- With `resolveToContext` enabled, no file-branch tap at all is installed. -/
theorem noFileBranchTaps_of_context (o : ResolveOptions) (h : o.resolveToContext = true) :
    (resolverPlugins o).all (fun p => !isFileBranchTap p) = true := by
  simp only [resolverPlugins, h, if_true, List.all_append, all_moduleEntryTap_notFileBranch]
  by_cases hu : o.unsafeCache <;> by_cases hp : o.pnpApi <;>
    by_cases ha : 0 < o.aliasList.length <;>
    simp [hu, hp, ha, isFileBranchTap, Function.comp_def, List.all_map]

/-- With `resolveToContext` enabled, the only tap on
`undescribed-existing-directory` forwards directly to `resolved`. -/
theorem undescribedExistingDirectoryTaps_eq (o : ResolveOptions)
    (h : o.resolveToContext = true) :
    (resolverPlugins o).filter isUndescribedExistingDirectoryTap =
      [.nextPlugin "undescribed-existing-directory" "resolved"] := by
  simp only [resolverPlugins, h, if_true, List.filter_append,
    filter_moduleEntryTap_undescribedExistingDirectory]
  by_cases hu : o.unsafeCache <;> by_cases hp : o.pnpApi <;>
    by_cases ha : 0 < o.aliasList.length <;>
    simp [hu, hp, ha, isUndescribedExistingDirectoryTap, pluginSource, Function.comp_def,
      List.filter_map]

/-! ## Concrete inputs used by witnesses and counterexamples -/

/-- The test options with `resolveToContext` enabled. -/
def contextUserOptions : UserResolveOptions :=
  { testUserOptions with resolveToContext := some true }

/-- The test options with one opaque user plugin. -/
def pluginUserOptions : UserResolveOptions :=
  { testUserOptions with plugins := [0] }

/-- The test options with an object-form alias configuration. -/
def aliasUserOptions : UserResolveOptions :=
  { testUserOptions with
      aliasOption := .obj [("mod$", .one "/abs/m.js"), ("pkg", .one "/abs/pkg")] }

/-- The factory-normalized options of the default `mainFields: ["main"]`. -/
def mfOptsMain : MainFieldOptions := { name := .inr ["main"], forceRelative := true }

/-- A request at the description-file root of the fixture, as it reaches the
`existing-directory` hook. -/
def baseReq : RReq :=
  { path := "/fx"
    request := some "."
    query := ""
    fragment := ""
    module := false
    directory := false
    descriptionFilePath := some "/fx/package.json"
    descriptionFileRoot := some "/fx"
    descriptionFileData := some (.obj [("main", .str "./index.js")])
    relativePath := some "."
    alreadyTriedMainField := none }

/-- `baseReq` moved to a directory that is not the description-file root. -/
def offRootReq : RReq := { baseReq with path := "/fx/sub" }

/-- The request `mainFieldStep` forks from `baseReq` with the default main
field. -/
def mfForked : RReq :=
  { baseReq with
      request := some "./index.js"
      module := false
      directory := false
      alreadyTriedMainField := some "/fx/package.json" }

/-- `baseReq` marked as a directory request. -/
def dirReq : RReq := { baseReq with directory := true }

/-! ## Claims -/

/-- Claim C1, counterexample: with one user plugin configured, the applied
plugin list starts with the user plugin and the built-in ParsePlugin comes
after it, so user plugins are not applied after every built-in step. -/
theorem c1_user_plugins_lead :
    (createResolver pluginUserOptions).take 2 =
      [.user 0, .parsePlugin "resolve" "parsed-resolve"] := by
  decide

/-- Claim C1 as amended: `createResolver` applies the user-supplied plugins
before every built-in pipeline step - the applied list is the user plugins
followed by the built-in taps, which do not depend on the user plugins - so on
any hook shared at equal stage the user taps run before the built-in taps. -/
theorem c1_user_plugins_precede_builtins (u : UserResolveOptions) :
    createResolver u =
      ((createOptions u).plugins.map Plugin.user)
        ++ resolverPlugins { createOptions u with plugins := [] } := by
  simp [createResolver, resolverPlugins]

/-- Claim C2: `MainFieldPlugin` yields (calls back with no result and no
error) whenever the request path differs from the description-file root, or no
description file path is attached, or the same description file was already
tried by this plugin, or the configured field read completes without producing
a string value, or the value is `"."` or `"./"`. -/
theorem c2_mainfield_yield_conditions (opts : MainFieldOptions) (req : RReq)
    (h : req.descriptionFileRoot ≠ some req.path
      ∨ req.descriptionFilePath = none
      ∨ (∃ f, req.descriptionFilePath = some f ∧ req.alreadyTriedMainField = some f)
      ∨ readMainField opts.name req.descriptionFileData = FieldRead.noString
      ∨ readMainField opts.name req.descriptionFileData = FieldRead.ok "."
      ∨ readMainField opts.name req.descriptionFileData = FieldRead.ok "./") :
    mainFieldStep opts req = MainFieldOutcome.yielded := by
  unfold mainFieldStep
  rcases h with h | h | ⟨f, h1, h2⟩ | h | h | h
  · have hc : (req.descriptionFileRoot != some req.path) = true := by
      simp [bne_iff_ne, h]
    simp [hc]
  · simp [h, optStrFalsy]
  · simp [h1, h2]
  · by_cases hg : (req.descriptionFileRoot != some req.path
        || req.alreadyTriedMainField == req.descriptionFilePath
        || optStrFalsy req.descriptionFilePath) = true
    · simp [hg]
    · simp only [Bool.not_eq_true] at hg
      simp [hg, h]
  · by_cases hg : (req.descriptionFileRoot != some req.path
        || req.alreadyTriedMainField == req.descriptionFilePath
        || optStrFalsy req.descriptionFilePath) = true
    · simp [hg]
    · simp only [Bool.not_eq_true] at hg
      simp [hg, h]
  · by_cases hg : (req.descriptionFileRoot != some req.path
        || req.alreadyTriedMainField == req.descriptionFilePath
        || optStrFalsy req.descriptionFilePath) = true
    · simp [hg]
    · simp only [Bool.not_eq_true] at hg
      simp [hg, h]

/-- Claim C2, witness at a request whose path is off the description-file
root. -/
theorem c2_mainfield_yield_conditions_witness :
    mainFieldStep mfOptsMain offRootReq = MainFieldOutcome.yielded :=
  c2_mainfield_yield_conditions mfOptsMain offRootReq (Or.inl (by decide))

/-- Claim C3: when the guards pass and the field name is a list, the step is
determined by `jsTraverse` through the description data: it yields unless the
walk ends on a string different from `""`, `"."` and `"./"`, and otherwise
forks with the value (prefixed by `./` when `forceRelative` is set and the
value does not begin with `./` or `../`) as the new request; and every
main-field tap the factory installs targets the
`resolve-in-existing-directory` hook. -/
theorem c3_mainfield_list_traversal :
    (∀ (opts : MainFieldOptions) (req : RReq) (fs : List String) (d : String),
      opts.name = Sum.inr fs →
      req.descriptionFileRoot = some req.path →
      req.descriptionFilePath = some d →
      d ≠ "" →
      req.alreadyTriedMainField ≠ some d →
      mainFieldStep opts req =
        (match jsTraverse req.descriptionFileData fs with
         | some (.str m) =>
           if m = "" ∨ m = "." ∨ m = "./" then MainFieldOutcome.yielded
           else .fork { req with
                         request := some (applyForceRelative opts.forceRelative m)
                         module := false
                         directory := strEnds (applyForceRelative opts.forceRelative m) "/"
                         alreadyTriedMainField := req.descriptionFilePath }
         | _ => MainFieldOutcome.yielded))
    ∧ (∀ u : UserResolveOptions,
        (createResolver u).filter isMainFieldTap =
          (if (createOptions u).resolveToContext then [] else
            (createOptions u).mainFields.map (fun item =>
              .mainFieldPlugin "existing-directory" item "resolve-in-existing-directory"))) := by
  constructor
  · intro opts req fs d hname hroot hdfp hdne hmarker
    have hg : (req.descriptionFileRoot != some req.path
        || req.alreadyTriedMainField == req.descriptionFilePath
        || optStrFalsy req.descriptionFilePath) = false := by
      simp [hroot, hdfp, optStrFalsy, hdne]
      simpa [hdfp] using hmarker
    unfold mainFieldStep
    rw [hg]
    simp only [Bool.false_eq_true, if_false, hname, readMainField]
    rcases htr : jsTraverse req.descriptionFileData fs with _ | v
    · rfl
    · cases v with
      | str m =>
        by_cases hm : m = "" ∨ m = "." ∨ m = "./"
        · have hb : (m == "" || m == "." || m == "./") = true := by
            rcases hm with hm | hm | hm <;> simp [hm]
          simp [hb, hm]
        · have hb : (m == "" || m == "." || m == "./") = false := by
            push_neg at hm
            simp [hm.1, hm.2.1, hm.2.2]
          simp [hb, hm]
      | num n => rfl
      | bool b => rfl
      | null => rfl
      | obj f2 => rfl
      | arr i2 => rfl
  · intro u
    exact mainFieldTaps_eq (createOptions u)

/-- Claim C3, witness: the fixture description file's `main` field forks with
`./index.js` as the new request. -/
theorem c3_mainfield_list_traversal_witness :
    mainFieldStep mfOptsMain baseReq = MainFieldOutcome.fork mfForked :=
  (c3_mainfield_list_traversal.1 mfOptsMain baseReq ["main"] "/fx/package.json"
    rfl rfl rfl (by decide) (by decide)).trans rfl

/-- Claim C4, counterexample: with `resolveToContext` enabled the factory
installs no `raw-file` tap at all, although `enforceExtension` is false and
extensions are configured - the claim fails for such an options record. -/
theorem c4_no_raw_file_taps_in_context_mode :
    (createOptions contextUserOptions).enforceExtension = false
      ∧ (createOptions contextUserOptions).extensions ≠ []
      ∧ (createResolver contextUserOptions).filter isRawFileTap = [] := by
  refine ⟨by decide, by decide, ?_⟩
  decide

/-- Claim C4 as amended: for every options record with `resolveToContext`
false, the `raw-file` taps are the extension-less try-next step (omitted
entirely when `enforceExtension` is true) followed by one AppendPlugin tap per
configured extension, in configured order. -/
theorem c4_raw_file_tap_order (u : UserResolveOptions)
    (h : (createOptions u).resolveToContext = false) :
    (createResolver u).filter isRawFileTap =
      (if (createOptions u).enforceExtension then []
       else [.tryNextPlugin "raw-file" "no extension" "file"])
        ++ (createOptions u).extensions.map (fun e => .appendPlugin "raw-file" e "file") :=
  rawFileTaps_eq (createOptions u) h

/-- Claim C4, witness at the extensions-test options. -/
theorem c4_raw_file_tap_order_witness :
    (createResolver testUserOptions).filter isRawFileTap =
      [.tryNextPlugin "raw-file" "no extension" "file",
       .appendPlugin "raw-file" ".ts" "file",
       .appendPlugin "raw-file" ".js" "file"] :=
  (c4_raw_file_tap_order testUserOptions rfl).trans rfl

/-- Claim C5: with `resolveToContext` disabled the factory taps
`resolve-in-directory` with the single-file-module FileKind branch strictly
before the DirectoryExists branch, and on the fixture where `module` exists
both as `node_modules/module.js` (after extension resolution) and as the
directory `node_modules/module/`, the bare request `module` resolves to the
single file. -/
theorem c5_single_file_before_directory :
    (∀ u : UserResolveOptions, (createOptions u).resolveToContext = false →
      (createResolver u).filter isResolveInDirectoryTap =
        [.fileKindPlugin "resolve-in-directory" (some "single file module") "undescribed-raw-file",
         .directoryExistsPlugin "resolve-in-directory" "resolve-in-existing-directory"])
    ∧ fixtureFS.isFile "/fx/node_modules/module.js" = true
    ∧ fixtureFS.isDir "/fx/node_modules/module" = true
    ∧ resultPath (runFixture "module") = some "/fx/node_modules/module.js" := by
  refine ⟨fun u h => resolveInDirectoryTaps_eq (createOptions u) h, by decide, by decide, ?_⟩
  decide

/-- Claim C5, witness at the extensions-test options. -/
theorem c5_single_file_before_directory_witness :
    (createResolver testUserOptions).filter isResolveInDirectoryTap =
      [.fileKindPlugin "resolve-in-directory" (some "single file module") "undescribed-raw-file",
       .directoryExistsPlugin "resolve-in-directory" "resolve-in-existing-directory"] :=
  c5_single_file_before_directory.1 testUserOptions rfl

/-- Claim C6, counterexample: the trailing-slash request `module/` resolves
successfully to `node_modules/module/index.ts`, which is a regular file of the
fixture - resolution of a `/`-terminated request can terminate on a regular
file (the repository's own test asserts this result). -/
theorem c6_trailing_slash_file_result :
    strEnds "module/" "/" = true
      ∧ resultPath (runFixture "module/") = some "/fx/node_modules/module/index.ts"
      ∧ fixtureFS.isFile "/fx/node_modules/module/index.ts" = true := by
  refine ⟨by decide, ?_, by decide⟩
  decide

/-- Claim C6 as amended: a request ending with `/` is never resolved by taking
its own joined path as a regular file - the FileKind steps yield on every
directory-flagged request - and in particular resolving `./foo.js/` (and
`module.js/`) against the fixture, where `foo.js` is a regular file, ends in
an error delivered to the callback; a trailing-slash request may still resolve
to a regular file inside the named directory, such as an index main file. -/
theorem c6_trailing_slash_not_own_file :
    fixtureFS.isFile "/fx/foo.js" = true
      ∧ isError (runFixture "./foo.js/") = true
      ∧ isError (runFixture "module.js/") = true
      ∧ (∀ (fs : MFS) (recurse : String → RReq → ROutcome) (s t : String)
            (msg : Option String) (req : RReq), req.directory = true →
          runPlugin fs recurse (.fileKindPlugin s msg t) req = ROutcome.yielded) := by
  refine ⟨by decide, by decide, by decide, ?_⟩
  intro fs recurse s t msg req h
  simp [runPlugin, h]

/-- Claim C6, witness: the FileKind step yields on a concrete
directory-flagged request. -/
theorem c6_trailing_slash_not_own_file_witness :
    runPlugin fixtureFS (fun _ _ => ROutcome.yielded)
      (.fileKindPlugin "described-relative" none "raw-file") dirReq = ROutcome.yielded :=
  c6_trailing_slash_not_own_file.2.2.2 fixtureFS (fun _ _ => ROutcome.yielded)
    "described-relative" "raw-file" none dirReq rfl

/-- Claim C7: `createOptions` merges each maximal run of consecutive
bare/relative `modules` entries into one group, leaving the other entries as
singletons in order, and `createResolver` taps `raw-module` with one
hierarchic-directories plugin per group and one root plugin per remaining
entry, in configured order. -/
theorem c7_modules_grouping_and_taps (u : UserResolveOptions) :
    (createOptions u).modules = groupMaximalRuns modulesFilter (modulesInput u.modules)
      ∧ (createResolver u).filter isModulesTap = (createOptions u).modules.map moduleEntryTap := by
  refine ⟨?_, modulesTaps_eq (createOptions u)⟩
  simp [createOptions, mergeFilteredToArray_eq_groupMaximalRuns]

/-- Claim C8: an object-form `alias` option is normalized by mapping every key
ending in `$` to an entry with `onlyModule` true and the `$` stripped from the
name, and every other key to an entry with `onlyModule` false and the key as
name, keeping the mapped value; an `onlyModule` entry matches a request only
when it equals the name exactly. -/
theorem c8_alias_object_normalization (u : UserResolveOptions)
    (kvs : List (String × AliasNewRequest)) (h : u.aliasOption = .obj kvs) :
    (createOptions u).aliasList =
      kvs.map (fun kv =>
        if strEnds kv.1 "$" then
          { name := strDropLastChar kv.1, onlyModule := true, aliasTo := kv.2 }
        else { name := kv.1, onlyModule := false, aliasTo := kv.2 })
      ∧ (∀ (e : AliasEntry) (r : String), e.onlyModule = true →
          (aliasMatches r e = true ↔ r = e.name)) := by
  constructor
  · simp only [createOptions, h]
    rfl
  · intro e r he
    simp [aliasMatches, he]

/-- Claim C8, witness at a two-key alias object. -/
theorem c8_alias_object_normalization_witness :
    (createOptions aliasUserOptions).aliasList =
      [{ name := "mod", onlyModule := true, aliasTo := .one "/abs/m.js" },
       { name := "pkg", onlyModule := false, aliasTo := .one "/abs/pkg" }]
      ∧ (aliasMatches "mod/sub" { name := "mod", onlyModule := true, aliasTo := .one "/abs/m.js" }
          = true ↔ "mod/sub" = "mod") :=
  ⟨((c8_alias_object_normalization aliasUserOptions _ rfl).1).trans rfl,
   (c8_alias_object_normalization aliasUserOptions _ rfl).2
     { name := "mod", onlyModule := true, aliasTo := .one "/abs/m.js" } "mod/sub" rfl⟩

/-- Claim C9: with `resolveToContext` enabled, `createResolver` installs none
of the file-branch taps (FileKind, MainField, UseFile, Append, FileExists,
Symlink), and the only tap on `undescribed-existing-directory` forwards
directly to `resolved` - so the returned directory path is never
symlink-canonicalized even with symlinks enabled. -/
theorem c9_context_mode_no_file_branch (u : UserResolveOptions)
    (h : (createOptions u).resolveToContext = true) :
    (createResolver u).all (fun p => !isFileBranchTap p) = true
      ∧ (createResolver u).filter isUndescribedExistingDirectoryTap =
          [.nextPlugin "undescribed-existing-directory" "resolved"] :=
  ⟨noFileBranchTaps_of_context (createOptions u) h,
   undescribedExistingDirectoryTaps_eq (createOptions u) h⟩

/-- Claim C9, witness at the context-mode options (which have symlinks at
their default, enabled). -/
theorem c9_context_mode_no_file_branch_witness :
    (createResolver contextUserOptions).all (fun p => !isFileBranchTap p) = true
      ∧ (createResolver contextUserOptions).filter isUndescribedExistingDirectoryTap =
          [.nextPlugin "undescribed-existing-directory" "resolved"] :=
  c9_context_mode_no_file_branch contextUserOptions rfl

/-- Claim C10: every request `MainFieldPlugin` forks keeps `path`, `query`,
`fragment`, the description-file triple and `relativePath` unchanged; only
`request`, `module` (false), `directory` (true iff the new request ends with
`/`) and the already-tried marker (set to the description file path) differ. -/
theorem c10_mainfield_fork_frame (opts : MainFieldOptions) (req : RReq) (obj : RReq)
    (h : mainFieldStep opts req = .fork obj) :
    obj.path = req.path ∧ obj.query = req.query ∧ obj.fragment = req.fragment
      ∧ obj.descriptionFilePath = req.descriptionFilePath
      ∧ obj.descriptionFileRoot = req.descriptionFileRoot
      ∧ obj.descriptionFileData = req.descriptionFileData
      ∧ obj.relativePath = req.relativePath
      ∧ obj.module = false
      ∧ obj.alreadyTriedMainField = req.descriptionFilePath
      ∧ obj.directory = (match obj.request with
                         | some m => strEnds m "/"
                         | none => false) := by
  unfold mainFieldStep at h
  split at h
  · simp at h
  · split at h
    · simp at h
    · simp at h
    · next m _ =>
      split at h
      · simp at h
      · rw [MainFieldOutcome.fork.injEq] at h
        subst h
        exact ⟨rfl, rfl, rfl, rfl, rfl, rfl, rfl, rfl, rfl, rfl⟩

/-- Claim C10, witness at the fixture's main-field fork. -/
theorem c10_mainfield_fork_frame_witness :
    mfForked.path = baseReq.path ∧ mfForked.query = baseReq.query
      ∧ mfForked.fragment = baseReq.fragment
      ∧ mfForked.descriptionFilePath = baseReq.descriptionFilePath
      ∧ mfForked.descriptionFileRoot = baseReq.descriptionFileRoot
      ∧ mfForked.descriptionFileData = baseReq.descriptionFileData
      ∧ mfForked.relativePath = baseReq.relativePath
      ∧ mfForked.module = false
      ∧ mfForked.alreadyTriedMainField = baseReq.descriptionFilePath
      ∧ mfForked.directory = (match mfForked.request with
                              | some m => strEnds m "/"
                              | none => false) :=
  c10_mainfield_fork_frame mfOptsMain baseReq mfForked rfl
